import Mathlib

/-!
Shallow embedding of the service worker `src/static/sw.js` of the
ponto-eletronico repository, and proofs of the specified properties of its
install / activate / fetch / message handlers.

Modelling conventions:
  * A captured HTTP response is a `Response` record (status, platform
    response type, content-type header, body text).
  * The network is a function from a request URL to `Option Response`;
    `none` models a rejected fetch (offline, DNS failure, timeout), while
    `some r` models a fetch resolving with response `r` (including HTTP
    error statuses, which do not reject a fetch).
  * A cache store (the platform `Cache`) is an association list from
    request URL keys to responses; the cache storage (the platform
    `CacheStorage`, `caches`) is an association list from cache names to
    stores, in creation order.  `caches.match` searches every store in
    order, as the platform does.
  * `Cache.addAll` is atomic, as in the platform: if any seed fetch fails
    or yields a non-ok response, the batch rejects and nothing is written.
  * Handler outcomes are records carrying the produced result, the cache
    storage after the handler, and observable effect counters (number of
    network fetches, whether skipWaiting / clients.claim were invoked).
-/

/-- A captured HTTP response: status code, platform response type
(`"basic"`, `"cors"`, `"opaque"`, `"default"`, ...), optional
`Content-Type` header value, and body text. -/
structure Response where
  status : Nat
  rtype : String
  contentType : Option String
  body : String
deriving DecidableEq, Repr

/-- `Response.ok` as on the platform: status in the 200–299 range. -/
def Response.ok (r : Response) : Bool :=
  200 ≤ r.status && r.status < 300

/-- A cache store (`Cache`): URL-keyed association list of responses. -/
abbrev CacheStore := List (String × Response)

/-- The cache storage (`CacheStorage`): named stores in creation order. -/
abbrev CacheMap := List (String × CacheStore)

/-- The network: `none` is a rejected fetch, `some r` a resolved one. -/
abbrev Network := String → Option Response

/-- `const CACHE_NAME = 'ponto-eletronico-v1'` (sw.js line 1). -/
def CACHE_NAME : String := "ponto-eletronico-v1"

/-- `const urlsToCache = [...]` (sw.js lines 2–12): the seed asset list. -/
def urlsToCache : List String :=
  [ "/",
    "/login",
    "/dashboard",
    "/static/css/style.css",
    "/static/js/app.js",
    "/static/manifest.json",
    "https://cdn.jsdelivr.net/npm/bootstrap@5.3.2/dist/css/bootstrap.min.css",
    "https://cdn.jsdelivr.net/npm/bootstrap-icons@1.11.1/font/bootstrap-icons.css",
    "https://cdn.jsdelivr.net/npm/bootstrap@5.3.2/dist/js/bootstrap.bundle.min.js" ]

/-- Character-list prefix test (p is a prefix of s). -/
def charsPrefix : List Char → List Char → Bool
  | [], _ => true
  | _ :: _, [] => false
  | a :: as, b :: bs => a = b && charsPrefix as bs

/-- `p.startsWith q` on our strings, via character lists. -/
def strStartsWith (s p : String) : Bool :=
  charsPrefix p.data s.data

/-- Scan a character list for the scheme separator `://`; return the
characters after it, or `none` if the separator is absent. -/
def afterSchemeSep : List Char → Option (List Char)
  | ':' :: '/' :: '/' :: rest => some rest
  | _ :: rest => afterSchemeSep rest
  | [] => none

/-- Drop the host portion (everything before the first `/`); a URL with an
empty path has pathname `/`. -/
def hostPath : List Char → List Char
  | [] => ['/']
  | '/' :: rest => '/' :: rest
  | _ :: rest => hostPath rest

/-- `new URL(url).pathname` (sw.js line 46): for an absolute URL, the part
of the URL after the host; a bare path is its own pathname. -/
def pathname (url : String) : String :=
  match afterSchemeSep url.data with
  | some rest => String.mk (hostPath rest)
  | none => url

/-- The api classification (sw.js lines 49–51): the pathname starts with
`/auth/`, `/ponto/` or `/admin/`. -/
def isApiPath (p : String) : Bool :=
  strStartsWith p "/auth/" || strStartsWith p "/ponto/" || strStartsWith p "/admin/"

/-- `cache.match(request)` on one store: first entry under the URL key. -/
def storeMatch : CacheStore → String → Option Response
  | [], _ => none
  | e :: rest, key => if e.1 = key then some e.2 else storeMatch rest key

/-- `caches.match(request)` (sw.js line 66): search every store in
creation order, returning the first hit. -/
def cachesMatch : CacheMap → String → Option Response
  | [], _ => none
  | e :: rest, key =>
    match storeMatch e.2 key with
    | some r => some r
    | none => cachesMatch rest key

/-- `cache.put(request, response)`: remove any entry under the key and
append the new record. -/
def storePut : CacheStore → String → Response → CacheStore
  | [], key, r => [(key, r)]
  | e :: rest, key, r =>
    if e.1 = key then storePut rest key r else e :: storePut rest key r

/-- Whether the storage has a store under `name`. -/
def cachesHas (m : CacheMap) (name : String) : Bool :=
  m.any (fun e => e.1 = name)

/-- `caches.open(name)`: create an empty store under `name` if absent. -/
def cachesOpen (m : CacheMap) (name : String) : CacheMap :=
  if cachesHas m name then m else m ++ [(name, [])]

/-- Update the store named `name` with a `storePut`, leaving every other
store untouched. -/
def putUpd (name key : String) (r : Response) (e : String × CacheStore) :
    String × CacheStore :=
  if e.1 = name then (e.1, storePut e.2 key r) else e

/-- `caches.open(name).then(cache => cache.put(key, r))` (sw.js lines
78–81): open the store and write the response under the key. -/
def cachesPut (m : CacheMap) (name : String) (key : String) (r : Response) : CacheMap :=
  (cachesOpen m name).map (putUpd name key r)

/-- The synthesized offline fallback of the api branch (sw.js lines
55–58): `new Response(JSON.stringify({ error: 'Offline - Conecte-se à
internet' }), { headers: { 'Content-Type': 'application/json' } })` — a
constructed response defaults to status 200 and type `"default"`. -/
def offlineFallback : Response :=
  { status := 200
    rtype := "default"
    contentType := some "application/json"
    body := "\x7b\"error\":\"Offline - Conecte-se à internet\"\x7d" }

/-- Outcome of the fetch handler: the value `event.respondWith` settles
with (`response r`, or `networkError` when the promise rejects). -/
inductive FetchResult where
  | response (r : Response)
  | networkError
deriving DecidableEq, Repr

/-- Full observable outcome of one fetch event: settled result, cache
storage afterwards, and how many network fetches were issued. -/
structure FetchOutcome where
  result : FetchResult
  caches : CacheMap
  networkCalls : Nat
deriving DecidableEq, Repr

/-- The fetch event listener (sw.js lines 45–87).  Api-classified
requests (pathname prefix `/auth/`, `/ponto/`, `/admin/`) go network
first, substituting `offlineFallback` when the fetch rejects.  Other
requests go cache first; on a miss the network response is returned, and
additionally written to the `CACHE_NAME` store when it has status 200 and
type `"basic"`; a rejected fetch on this path propagates. -/
def handleFetch (m : CacheMap) (net : Network) (requestUrl : String) : FetchOutcome :=
  if isApiPath (pathname requestUrl) then
    match net requestUrl with
    | some r => ⟨.response r, m, 1⟩
    | none => ⟨.response offlineFallback, m, 1⟩
  else
    match cachesMatch m requestUrl with
    | some r => ⟨.response r, m, 0⟩
    | none =>
      match net requestUrl with
      | none => ⟨.networkError, m, 1⟩
      | some r =>
        if r.status = 200 ∧ r.rtype = "basic" then
          ⟨.response r, cachesPut m CACHE_NAME requestUrl r, 1⟩
        else
          ⟨.response r, m, 1⟩

/-- Fetch every URL of the list, requiring each to resolve with an ok
response (`cache.addAll` rejects otherwise); `none` if any fails. -/
def fetchAllOk (net : Network) : List String → Option (List (String × Response))
  | [] => some []
  | u :: rest =>
    match net u with
    | none => none
    | some r =>
      if r.ok then (fetchAllOk net rest).map (fun l => (u, r) :: l)
      else none

/-- `cache.addAll(urls)` on the store `name` (sw.js line 20): atomic —
either every URL is fetched ok and all are written, or nothing is. -/
def cacheAddAll (m : CacheMap) (name : String) (net : Network) (urls : List String) :
    Option CacheMap :=
  (fetchAllOk net urls).map (fun entries =>
    entries.foldl (fun acc e => cachesPut acc name e.1 e.2) m)

/-- Outcome of the install handler: whether the `waitUntil` promise
resolved (the install is considered successful), the cache storage
afterwards, and whether `skipWaiting` was invoked. -/
structure InstallOutcome where
  succeeded : Bool
  caches : CacheMap
  skippedWaiting : Bool
deriving DecidableEq, Repr

/-- The install event listener (sw.js lines 15–25): open the
`CACHE_NAME` store, `addAll` the seed list, and **catch** any error,
merely logging it — so the `waitUntil` promise always resolves and the
install is always considered successful.  `skipWaiting` is always
invoked. -/
def installHandler (m : CacheMap) (net : Network) : InstallOutcome :=
  let opened := cachesOpen m CACHE_NAME
  match cacheAddAll opened CACHE_NAME net urlsToCache with
  | some seeded => ⟨true, seeded, true⟩
  | none => ⟨true, opened, true⟩

/-- Outcome of the activate handler: cache storage afterwards and
whether `clients.claim` was invoked. -/
structure ActivateOutcome where
  caches : CacheMap
  claimed : Bool
deriving DecidableEq, Repr

/-- The activate event listener (sw.js lines 28–42): delete every cache
whose name differs from `CACHE_NAME`, then `clients.claim()`. -/
def activateHandler (m : CacheMap) : ActivateOutcome :=
  ⟨m.filter (fun e => (e.1 = CACHE_NAME : Bool)), true⟩

/-- The message event listener (sw.js lines 90–94): `skipWaiting` is
invoked exactly when the payload is the string `'skipWaiting'`. -/
def messageHandler (payload : String) : Bool :=
  if payload = "skipWaiting" then true else false

/-- A concrete sample API response, for witnesses. -/
def apiResp : Response :=
  { status := 200, rtype := "basic", contentType := some "application/json"
    body := "\x7b\"ok\":true\x7d" }

/-- A concrete sample stylesheet response, for witnesses. -/
def cssResp : Response :=
  { status := 200, rtype := "basic", contentType := some "text/css", body := "body" }

/-- A concrete sample ineligible (404) response, for witnesses. -/
def notFoundResp : Response :=
  { status := 404, rtype := "basic", contentType := some "text/html", body := "not found" }

/-- A concrete network on which every fetch resolves with an ok basic
response, for witnesses. -/
def seedOkNet : Network :=
  fun u => some { status := 200, rtype := "basic", contentType := some "text/html", body := u }

theorem putUpd_of_name {e : String × CacheStore} {name : String} (key : String)
    (r : Response) (hn : e.1 = name) :
    putUpd name key r e = (e.1, storePut e.2 key r) := by
  simp [putUpd, hn]

theorem putUpd_of_other {e : String × CacheStore} {name : String} (key : String)
    (r : Response) (hn : ¬ e.1 = name) :
    putUpd name key r e = e := by
  simp [putUpd, hn]

theorem cachesHas_tail {e : String × CacheStore} {rest : CacheMap} {name : String}
    (hhas : cachesHas (e :: rest) name = true) (hn : ¬ e.1 = name) :
    cachesHas rest name = true := by
  simp only [cachesHas, List.any_cons] at hhas
  rcases Bool.or_eq_true_iff.mp hhas with h1 | h2
  · exact absurd (of_decide_eq_true h1) hn
  · exact h2

theorem storeMatch_storePut_ne (s : CacheStore) (key k : String) (r : Response)
    (h : ¬ k = key) : storeMatch (storePut s key r) k = storeMatch s k := by
  induction s with
  | nil =>
    simp only [storePut, storeMatch]
    rw [if_neg (fun hk : key = k => h hk.symm)]
  | cons e rest ih =>
    by_cases he : e.1 = key
    · rw [show storePut (e :: rest) key r = storePut rest key r by
        simp [storePut, he]]
      rw [ih]
      simp only [storeMatch]
      rw [if_neg (fun hk : e.1 = k => h (hk.symm.trans he))]
    · rw [show storePut (e :: rest) key r = e :: storePut rest key r by
        simp [storePut, he]]
      simp only [storeMatch, ih]

theorem storeMatch_storePut_self (s : CacheStore) (key : String) (r : Response) :
    storeMatch (storePut s key r) key = some r := by
  induction s with
  | nil => simp [storePut, storeMatch]
  | cons e rest ih =>
    by_cases he : e.1 = key
    · rw [show storePut (e :: rest) key r = storePut rest key r by
        simp [storePut, he]]
      exact ih
    · rw [show storePut (e :: rest) key r = e :: storePut rest key r by
        simp [storePut, he]]
      simp only [storeMatch, ih]
      rw [if_neg he]

theorem cachesMatch_append_empty (m : CacheMap) (name k : String) :
    cachesMatch (m ++ [(name, [])]) k = cachesMatch m k := by
  induction m with
  | nil => simp [cachesMatch, storeMatch]
  | cons e rest ih =>
    rw [List.cons_append]
    simp only [cachesMatch, ih]

theorem cachesMatch_cachesOpen (m : CacheMap) (name k : String) :
    cachesMatch (cachesOpen m name) k = cachesMatch m k := by
  unfold cachesOpen
  by_cases h : cachesHas m name = true
  · rw [if_pos h]
  · rw [if_neg h, cachesMatch_append_empty]

theorem cachesMatch_map_putUpd_ne (m : CacheMap) (name key k : String) (r : Response)
    (h : ¬ k = key) :
    cachesMatch (m.map (putUpd name key r)) k = cachesMatch m k := by
  induction m with
  | nil => simp [cachesMatch]
  | cons e rest ih =>
    rw [List.map_cons]
    by_cases hn : e.1 = name
    · rw [putUpd_of_name key r hn]
      simp only [cachesMatch, storeMatch_storePut_ne e.2 key k r h, ih]
    · rw [putUpd_of_other key r hn]
      simp only [cachesMatch, ih]

theorem cachesMatch_cachesPut_ne (m : CacheMap) (name key k : String) (r : Response)
    (h : ¬ k = key) :
    cachesMatch (cachesPut m name key r) k = cachesMatch m k := by
  unfold cachesPut
  rw [cachesMatch_map_putUpd_ne _ _ _ _ _ h, cachesMatch_cachesOpen]

theorem cachesHas_cachesOpen (m : CacheMap) (name : String) :
    cachesHas (cachesOpen m name) name = true := by
  unfold cachesOpen
  by_cases h : cachesHas m name = true
  · rw [if_pos h]; exact h
  · rw [if_neg h]
    simp [cachesHas, List.any_append]

theorem cachesMatch_map_putUpd_self (m : CacheMap) (name key : String) (r : Response)
    (hhas : cachesHas m name = true) :
    (cachesMatch (m.map (putUpd name key r)) key).isSome = true := by
  induction m with
  | nil => simp [cachesHas] at hhas
  | cons e rest ih =>
    rw [List.map_cons]
    by_cases hn : e.1 = name
    · rw [putUpd_of_name key r hn]
      simp only [cachesMatch, storeMatch_storePut_self e.2 key r, Option.isSome_some]
    · rw [putUpd_of_other key r hn]
      simp only [cachesMatch]
      cases hs : storeMatch e.2 key with
      | some r0 => simp
      | none => exact ih (cachesHas_tail hhas hn)

theorem cachesMatch_cachesPut_self_isSome (m : CacheMap) (name key : String)
    (r : Response) :
    (cachesMatch (cachesPut m name key r) key).isSome = true := by
  unfold cachesPut
  exact cachesMatch_map_putUpd_self _ _ _ _ (cachesHas_cachesOpen m name)

theorem cachesMatch_map_putUpd_self_eq (m : CacheMap) (name key : String) (r : Response)
    (hhas : cachesHas m name = true) (hnone : cachesMatch m key = none) :
    cachesMatch (m.map (putUpd name key r)) key = some r := by
  induction m with
  | nil => simp [cachesHas] at hhas
  | cons e rest ih =>
    have hsm : storeMatch e.2 key = none := by
      cases hs : storeMatch e.2 key with
      | some r0 =>
        exfalso
        simp only [cachesMatch, hs] at hnone
        exact Option.noConfusion hnone
      | none => rfl
    have hrest : cachesMatch rest key = none := by
      simp only [cachesMatch, hsm] at hnone
      exact hnone
    rw [List.map_cons]
    by_cases hn : e.1 = name
    · rw [putUpd_of_name key r hn]
      simp only [cachesMatch, storeMatch_storePut_self e.2 key r]
    · rw [putUpd_of_other key r hn]
      simp only [cachesMatch, hsm]
      exact ih (cachesHas_tail hhas hn) hrest

theorem cachesMatch_cachesPut_self_eq (m : CacheMap) (name key : String) (r : Response)
    (hnone : cachesMatch m key = none) :
    cachesMatch (cachesPut m name key r) key = some r := by
  unfold cachesPut
  refine cachesMatch_map_putUpd_self_eq _ _ _ _ (cachesHas_cachesOpen m name) ?hn
  rw [cachesMatch_cachesOpen]
  exact hnone

theorem mem_map_putUpd_ne (m : CacheMap) (name key tag : String) (r : Response)
    (s : CacheStore) (h : ¬ tag = name) :
    ((tag, s) ∈ m.map (putUpd name key r)) ↔ (tag, s) ∈ m := by
  constructor
  · intro hm
    rcases List.mem_map.mp hm with ⟨e, he, hfe⟩
    by_cases hn : e.1 = name
    · exfalso
      have h1 : (putUpd name key r e).1 = e.1 := by
        rw [putUpd_of_name key r hn]

      rw [hfe] at h1
      exact h (h1.trans hn)
    · rw [putUpd_of_other key r hn] at hfe
      rwa [hfe] at he
  · intro hm
    refine List.mem_map.mpr ⟨(tag, s), hm, ?he⟩
    exact putUpd_of_other key r h

theorem mem_cachesOpen_ne (m : CacheMap) (name tag : String) (s : CacheStore)
    (h : ¬ tag = name) :
    ((tag, s) ∈ cachesOpen m name) ↔ (tag, s) ∈ m := by
  unfold cachesOpen
  by_cases hhas : cachesHas m name = true
  · rw [if_pos hhas]
  · rw [if_neg hhas]
    constructor
    · intro hm
      rcases List.mem_append.mp hm with h1 | h2
      · exact h1
      · exact absurd (congrArg Prod.fst (List.mem_singleton.mp h2)) h
    · intro hm
      exact List.mem_append.mpr (Or.inl hm)

theorem mem_cachesPut_ne (m : CacheMap) (name key tag : String) (r : Response)
    (s : CacheStore) (h : ¬ tag = name) :
    ((tag, s) ∈ cachesPut m name key r) ↔ (tag, s) ∈ m := by
  unfold cachesPut
  rw [mem_map_putUpd_ne _ _ _ _ _ _ h, mem_cachesOpen_ne _ _ _ _ h]

theorem cachesMatch_foldPut_isSome (entries : List (String × Response)) (m : CacheMap)
    (name k : String) (h : (cachesMatch m k).isSome = true) :
    (cachesMatch (entries.foldl (fun acc e => cachesPut acc name e.1 e.2) m) k).isSome
      = true := by
  induction entries generalizing m with
  | nil => exact h
  | cons e rest ih =>
    rw [List.foldl_cons]
    refine ih _ ?h1
    by_cases hk : k = e.1
    · rw [hk]
      exact cachesMatch_cachesPut_self_isSome m name e.1 e.2
    · rw [cachesMatch_cachesPut_ne m name e.1 k e.2 hk]
      exact h

theorem cachesMatch_foldPut_mem (entries : List (String × Response)) (m : CacheMap)
    (name u : String) (hu : u ∈ entries.map Prod.fst) :
    (cachesMatch (entries.foldl (fun acc e => cachesPut acc name e.1 e.2) m) u).isSome
      = true := by
  induction entries generalizing m with
  | nil => simp at hu
  | cons e rest ih =>
    rw [List.foldl_cons]
    rw [List.map_cons] at hu
    rcases List.mem_cons.mp hu with h1 | h2
    · refine cachesMatch_foldPut_isSome rest _ name u ?h1
      rw [h1]
      exact cachesMatch_cachesPut_self_isSome m name e.1 e.2
    · exact ih _ h2

theorem fetchAllOk_keys (net : Network) (urls : List String)
    (entries : List (String × Response)) (h : fetchAllOk net urls = some entries) :
    entries.map Prod.fst = urls := by
  induction urls generalizing entries with
  | nil =>
    simp only [fetchAllOk, Option.some_inj] at h
    rw [← h]
    rfl
  | cons u rest ih =>
    cases hn : net u with
    | none => simp [fetchAllOk, hn] at h
    | some r =>
      simp only [fetchAllOk, hn] at h
      by_cases hok : r.ok = true
      · rw [if_pos hok] at h
        rcases Option.map_eq_some'.mp h with ⟨l, hl, hentries⟩
        rw [← hentries, List.map_cons, ih l hl]
      · rw [if_neg hok] at h
        exact Option.noConfusion h

theorem handleFetch_api_some (m : CacheMap) (net : Network) (u : String) (r : Response)
    (hapi : isApiPath (pathname u) = true) (hr : net u = some r) :
    handleFetch m net u = ⟨.response r, m, 1⟩ := by
  simp [handleFetch, hapi, hr]

theorem handleFetch_api_none (m : CacheMap) (net : Network) (u : String)
    (hapi : isApiPath (pathname u) = true) (hr : net u = none) :
    handleFetch m net u = ⟨.response offlineFallback, m, 1⟩ := by
  simp [handleFetch, hapi, hr]

theorem handleFetch_hit (m : CacheMap) (net : Network) (u : String) (r : Response)
    (hasset : isApiPath (pathname u) = false) (hhit : cachesMatch m u = some r) :
    handleFetch m net u = ⟨.response r, m, 0⟩ := by
  simp [handleFetch, hasset, hhit]

theorem handleFetch_miss_fail (m : CacheMap) (net : Network) (u : String)
    (hasset : isApiPath (pathname u) = false) (hmiss : cachesMatch m u = none)
    (hr : net u = none) :
    handleFetch m net u = ⟨.networkError, m, 1⟩ := by
  simp [handleFetch, hasset, hmiss, hr]

theorem handleFetch_miss_ineligible (m : CacheMap) (net : Network) (u : String)
    (r : Response) (hasset : isApiPath (pathname u) = false)
    (hmiss : cachesMatch m u = none) (hr : net u = some r)
    (hbad : ¬ (r.status = 200 ∧ r.rtype = "basic")) :
    handleFetch m net u = ⟨.response r, m, 1⟩ := by
  simp [handleFetch, hasset, hmiss, hr, hbad]

theorem handleFetch_miss_eligible (m : CacheMap) (net : Network) (u : String)
    (r : Response) (hasset : isApiPath (pathname u) = false)
    (hmiss : cachesMatch m u = none) (hr : net u = some r)
    (hgood : r.status = 200 ∧ r.rtype = "basic") :
    handleFetch m net u = ⟨.response r, cachesPut m CACHE_NAME u r, 1⟩ := by
  simp [handleFetch, hasset, hmiss, hr, hgood]

theorem handleFetch_caches_cases (m : CacheMap) (net : Network) (u : String) :
    (handleFetch m net u).caches = m ∨
    (∃ r : Response, net u = some r ∧ cachesMatch m u = none ∧
      r.status = 200 ∧ r.rtype = "basic" ∧
      (handleFetch m net u).caches = cachesPut m CACHE_NAME u r) := by
  cases hapi : isApiPath (pathname u) with
  | true =>
    cases hr : net u with
    | some r => left; rw [handleFetch_api_some m net u r hapi hr]
    | none => left; rw [handleFetch_api_none m net u hapi hr]
  | false =>
    cases hm : cachesMatch m u with
    | some r => left; rw [handleFetch_hit m net u r hapi hm]
    | none =>
      cases hr : net u with
      | none => left; rw [handleFetch_miss_fail m net u hapi hm hr]
      | some r =>
        by_cases hgood : r.status = 200 ∧ r.rtype = "basic"
        · right
          refine ⟨r, rfl, rfl, hgood.1, hgood.2, ?hc⟩
          rw [handleFetch_miss_eligible m net u r hapi hm hr hgood]
        · left
          rw [handleFetch_miss_ineligible m net u r hapi hm hr hgood]

/-- C1: for an api-classified request (pathname prefix `/auth/`, `/ponto/`
or `/admin/`), a resolving network fetch is returned unchanged; a rejected
fetch yields the synthesized fallback — a response with an HTTP success
status (200), content-type `application/json` and the offline JSON body —
and the network error never propagates to the caller. -/
theorem api_network_first (m : CacheMap) (net : Network) (u : String)
    (h : isApiPath (pathname u) = true) :
    (∀ r : Response, net u = some r → handleFetch m net u = ⟨.response r, m, 1⟩) ∧
    (net u = none → handleFetch m net u = ⟨.response offlineFallback, m, 1⟩) ∧
    (handleFetch m net u).result ≠ .networkError ∧
    200 ≤ offlineFallback.status ∧ offlineFallback.status < 300 ∧
    offlineFallback.contentType = some "application/json" ∧
    offlineFallback.body = "\x7b\"error\":\"Offline - Conecte-se à internet\"\x7d" := by
  refine ⟨?a, ?b, ?c, by decide, by decide, rfl, rfl⟩
  · intro r hr
    exact handleFetch_api_some m net u r h hr
  · intro hr
    exact handleFetch_api_none m net u h hr
  · cases hr : net u with
    | some r => rw [handleFetch_api_some m net u r h hr]; simp
    | none => rw [handleFetch_api_none m net u h hr]; simp

/-- C1 witness: concrete api requests, one with the network down and one
with it up. -/
theorem api_network_first_witness :
    handleFetch [] (fun _ => none) "/auth/logout"
        = ⟨.response offlineFallback, [], 1⟩ ∧
    handleFetch [] (fun _ => some apiResp) "/ponto/registrar"
        = ⟨.response apiResp, [], 1⟩ :=
  ⟨(api_network_first [] (fun _ => none) "/auth/logout" (by decide)).2.1 rfl,
   (api_network_first [] (fun _ => some apiResp) "/ponto/registrar" (by decide)).1
     apiResp rfl⟩

/-- C2: for an asset-classified request whose key is in a cache store, the
cached response is returned, no network fetch happens, and the cache
storage is unchanged. -/
theorem asset_cache_hit_short_circuit (m : CacheMap) (net : Network) (u : String)
    (r : Response) (hasset : isApiPath (pathname u) = false)
    (hhit : cachesMatch m u = some r) :
    handleFetch m net u = ⟨.response r, m, 0⟩ :=
  handleFetch_hit m net u r hasset hhit

/-- C2 witness: a cached stylesheet is served with zero network calls even
while the network is down. -/
theorem asset_cache_hit_short_circuit_witness :
    handleFetch [(CACHE_NAME, [("/static/css/style.css", cssResp)])] (fun _ => none)
        "/static/css/style.css"
      = ⟨.response cssResp, [(CACHE_NAME, [("/static/css/style.css", cssResp)])], 0⟩ :=
  asset_cache_hit_short_circuit _ _ _ _ (by decide) (by decide)

/-- C3: an asset cache miss whose network response is not status-200
`"basic"` is returned to the caller but not persisted — the cache storage
is unchanged and the key still misses — and in general a response only
ever enters the storage during fetch handling if it has status 200 and
type `"basic"`. -/
theorem asset_ineligible_not_cached (m : CacheMap) (net : Network) (u : String)
    (r : Response) (hasset : isApiPath (pathname u) = false)
    (hmiss : cachesMatch m u = none) (hnet : net u = some r)
    (hbad : ¬ (r.status = 200 ∧ r.rtype = "basic")) :
    handleFetch m net u = ⟨.response r, m, 1⟩ ∧
    cachesMatch (handleFetch m net u).caches u = none ∧
    (∀ (m' : CacheMap) (net' : Network) (u' k : String) (r' : Response),
      cachesMatch (handleFetch m' net' u').caches k = some r' →
      cachesMatch m' k = some r' ∨ (r'.status = 200 ∧ r'.rtype = "basic")) := by
  have h1 : handleFetch m net u = ⟨.response r, m, 1⟩ :=
    handleFetch_miss_ineligible m net u r hasset hmiss hnet hbad
  refine ⟨h1, ?h2, ?h3⟩
  · rw [h1]
    exact hmiss
  · intro m' net' u' k r' hk
    rcases handleFetch_caches_cases m' net' u' with hc | ⟨r0, hr0, hm0, h200, hbasic, hc⟩
    · rw [hc] at hk
      exact Or.inl hk
    · rw [hc] at hk
      by_cases hku : k = u'
      · rw [hku, cachesMatch_cachesPut_self_eq m' CACHE_NAME u' r0 hm0] at hk
        have hrr : r' = r0 := (Option.some_inj.mp hk).symm
        exact Or.inr ⟨hrr ▸ h200, hrr ▸ hbasic⟩
      · rw [cachesMatch_cachesPut_ne m' CACHE_NAME u' k r0 hku] at hk
        exact Or.inl hk

/-- C4 counterexample: with the network fully down, the install handler
still reports success (`waitUntil` resolves, the error being caught and
only logged), while the seed URL `/` is not stored and the freshly opened
`CACHE_NAME` store is nevertheless live and referenced. -/
theorem install_all_or_nothing_counterexample :
    (installHandler [] (fun _ => none)).succeeded = true ∧
    cachesMatch (installHandler [] (fun _ => none)).caches "/" = none ∧
    cachesHas (installHandler [] (fun _ => none)).caches CACHE_NAME = true := by
  refine ⟨rfl, ?b, rfl⟩
  rfl

/-- C4 (amended): install always reports success — a seeding failure is
caught and merely logged; when every seed fetch resolves ok, every seed
URL is stored in the opened storage (`addAll` is atomic), and when
seeding fails nothing is written beyond opening the `CACHE_NAME` store,
yet install is still reported successful. -/
theorem install_best_effort (m : CacheMap) (net : Network) (u : String)
    (hu : u ∈ urlsToCache) :
    (installHandler m net).succeeded = true ∧
    ((fetchAllOk net urlsToCache).isSome = true →
      (cachesMatch (installHandler m net).caches u).isSome = true) ∧
    (fetchAllOk net urlsToCache = none →
      (installHandler m net).caches = cachesOpen m CACHE_NAME) := by
  cases hf : fetchAllOk net urlsToCache with
  | none =>
    have hadd : cacheAddAll (cachesOpen m CACHE_NAME) CACHE_NAME net urlsToCache
        = none := by
      simp [cacheAddAll, hf]
    refine ⟨?_, ?_, ?_⟩
    · simp [installHandler, hadd]
    · intro hsome
      simp at hsome
    · intro _
      simp [installHandler, hadd]
  | some entries =>
    have hadd : cacheAddAll (cachesOpen m CACHE_NAME) CACHE_NAME net urlsToCache
        = some (entries.foldl (fun acc e => cachesPut acc CACHE_NAME e.1 e.2)
            (cachesOpen m CACHE_NAME)) := by
      simp [cacheAddAll, hf]
    refine ⟨?_, ?_, ?_⟩
    · simp [installHandler, hadd]
    · intro _
      have hcaches : (installHandler m net).caches
          = entries.foldl (fun acc e => cachesPut acc CACHE_NAME e.1 e.2)
              (cachesOpen m CACHE_NAME) := by
        simp [installHandler, hadd]
      rw [hcaches]
      refine cachesMatch_foldPut_mem entries _ CACHE_NAME u ?hm
      rw [fetchAllOk_keys net urlsToCache entries hf]
      exact hu
    · intro hnone
      exact Option.noConfusion hnone

/-- C4 witness: with a network on which every fetch resolves ok, install
succeeds and the seed URL `/login` is stored. -/
theorem install_best_effort_witness :
    (installHandler [] seedOkNet).succeeded = true ∧
    (cachesMatch (installHandler [] seedOkNet).caches "/login").isSome = true :=
  ⟨(install_best_effort [] seedOkNet "/login" (by decide)).1,
   (install_best_effort [] seedOkNet "/login" (by decide)).2.1 (by decide)⟩

/-- C5: after activate, a named store survives exactly when it was already
present and its name is the current `CACHE_NAME`, and `clients.claim` has
been invoked (control of open pages is taken immediately). -/
theorem activate_stale_gc (m : CacheMap) (tag : String) (s : CacheStore) :
    ((tag, s) ∈ (activateHandler m).caches ↔ (tag, s) ∈ m ∧ tag = CACHE_NAME) ∧
    (activateHandler m).claimed = true := by
  constructor
  · simp [activateHandler, List.mem_filter]
  · rfl

/-- C5 witness: activating over a stale `v0` store and the current store
deletes the former, keeps the latter, and claims clients. -/
theorem activate_stale_gc_witness :
    ("ponto-eletronico-v1", ([] : CacheStore))
        ∈ (activateHandler
            [("ponto-eletronico-v0", []), ("ponto-eletronico-v1", [])]).caches ∧
    ¬ ("ponto-eletronico-v0", ([] : CacheStore))
        ∈ (activateHandler
            [("ponto-eletronico-v0", []), ("ponto-eletronico-v1", [])]).caches ∧
    (activateHandler
        [("ponto-eletronico-v0", []), ("ponto-eletronico-v1", [])]).claimed = true :=
  ⟨((activate_stale_gc [("ponto-eletronico-v0", []), ("ponto-eletronico-v1", [])]
      "ponto-eletronico-v1" []).1).mpr ⟨by decide, rfl⟩,
   fun h => absurd (((activate_stale_gc
      [("ponto-eletronico-v0", []), ("ponto-eletronico-v1", [])]
      "ponto-eletronico-v0" []).1).mp h).2 (by decide),
   (activate_stale_gc [("ponto-eletronico-v0", []), ("ponto-eletronico-v1", [])]
      "x" []).2⟩

/-- C6 counterexample: for an asset-classified request that misses the
(empty) cache while the network is down, the router's outcome is a
network error, not a response object — refuting the claim that for every
intercepted request the router resolves with a response. -/
theorem router_always_responds_counterexample :
    (handleFetch [] (fun _ => none) "/dashboard").result = .networkError := by
  rfl

/-- C6 (amended): the router resolves with a response for every
api-classified request and for every asset request that hits the cache or
whose fetch resolves; the only outcome that is not a response is the
controlled network-error rejection on an asset cache miss with a failed
fetch. -/
theorem router_error_only_asset_offline (m : CacheMap) (net : Network) (u : String)
    (h : (handleFetch m net u).result = .networkError) :
    isApiPath (pathname u) = false ∧ cachesMatch m u = none ∧ net u = none := by
  cases hapi : isApiPath (pathname u) with
  | true =>
    exfalso
    cases hr : net u with
    | some r =>
      rw [handleFetch_api_some m net u r hapi hr] at h
      exact FetchResult.noConfusion h
    | none =>
      rw [handleFetch_api_none m net u hapi hr] at h
      exact FetchResult.noConfusion h
  | false =>
    cases hm : cachesMatch m u with
    | some r =>
      exfalso
      rw [handleFetch_hit m net u r hapi hm] at h
      exact FetchResult.noConfusion h
    | none =>
      cases hr : net u with
      | some r =>
        exfalso
        by_cases hgood : r.status = 200 ∧ r.rtype = "basic"
        · rw [handleFetch_miss_eligible m net u r hapi hm hr hgood] at h
          exact FetchResult.noConfusion h
        · rw [handleFetch_miss_ineligible m net u r hapi hm hr hgood] at h
          exact FetchResult.noConfusion h
      | none => exact ⟨rfl, rfl, rfl⟩

/-- C6 witness: the amended theorem applied at the counterexample input. -/
theorem router_error_only_asset_offline_witness :
    isApiPath (pathname "/dashboard") = false ∧
    cachesMatch ([] : CacheMap) "/dashboard" = none ∧
    (fun _ : String => (none : Option Response)) "/dashboard" = none :=
  router_error_only_asset_offline [] (fun _ => none) "/dashboard" rfl

/-- C7: an asset-classified request that misses every cache store and
whose network fetch rejects propagates the failure to the caller — no
synthetic fallback is substituted and the cache storage is unchanged. -/
theorem asset_network_failure_propagates (m : CacheMap) (net : Network) (u : String)
    (hasset : isApiPath (pathname u) = false) (hmiss : cachesMatch m u = none)
    (hnet : net u = none) :
    handleFetch m net u = ⟨.networkError, m, 1⟩ :=
  handleFetch_miss_fail m net u hasset hmiss hnet

/-- C7 witness: a concrete uncached asset request with the network down. -/
theorem asset_network_failure_propagates_witness :
    handleFetch [(CACHE_NAME, [])] (fun _ => none) "/static/js/app.js"
      = ⟨.networkError, [(CACHE_NAME, [])], 1⟩ :=
  asset_network_failure_propagates [(CACHE_NAME, [])] (fun _ => none)
    "/static/js/app.js" (by decide) (by decide) rfl

/-- C8: handling an api-classified request never modifies the cache
storage — it is identical before and after the fetch event, whether the
network fetch resolves or rejects. -/
theorem api_no_cache_write (m : CacheMap) (net : Network) (u : String)
    (h : isApiPath (pathname u) = true) :
    (handleFetch m net u).caches = m := by
  cases hr : net u with
  | some r => rw [handleFetch_api_some m net u r h hr]
  | none => rw [handleFetch_api_none m net u h hr]

/-- C8 witness: concrete api requests over a nonempty storage, with the
network up and down. -/
theorem api_no_cache_write_witness :
    (handleFetch [(CACHE_NAME, [("/login", cssResp)])]
        (fun _ => some apiResp) "/admin/usuarios").caches
      = [(CACHE_NAME, [("/login", cssResp)])] ∧
    (handleFetch [(CACHE_NAME, [("/login", cssResp)])]
        (fun _ => none) "/auth/login").caches
      = [(CACHE_NAME, [("/login", cssResp)])] :=
  ⟨api_no_cache_write [(CACHE_NAME, [("/login", cssResp)])]
      (fun _ => some apiResp) "/admin/usuarios" (by decide),
   api_no_cache_write [(CACHE_NAME, [("/login", cssResp)])]
      (fun _ => none) "/auth/login" (by decide)⟩

/-- C9: the message handler invokes `skipWaiting` exactly when the payload
is the string `'skipWaiting'`; every other payload has no effect. -/
theorem message_skip_waiting_iff (payload : String) :
    messageHandler payload = true ↔ payload = "skipWaiting" := by
  unfold messageHandler
  by_cases h : payload = "skipWaiting"
  · simp [h]
  · simp [h]

/-- C9 witness: the recognized payload promotes; another payload does
nothing. -/
theorem message_skip_waiting_iff_witness :
    messageHandler "skipWaiting" = true ∧ messageHandler "update" = false :=
  ⟨(message_skip_waiting_iff "skipWaiting").mpr rfl,
   Bool.eq_false_iff.mpr (fun h =>
     absurd ((message_skip_waiting_iff "update").mp h) (by decide))⟩

/-- C10: fetch handling never creates or writes to a store under a name
other than `CACHE_NAME`: every entry of the storage under another name is
exactly as before the fetch event. -/
theorem fetch_writes_only_current_store (m : CacheMap) (net : Network) (u : String)
    (tag : String) (s : CacheStore) (h : ¬ tag = CACHE_NAME) :
    ((tag, s) ∈ (handleFetch m net u).caches ↔ (tag, s) ∈ m) := by
  rcases handleFetch_caches_cases m net u with hc | ⟨r, _, _, _, _, hc⟩
  · rw [hc]
  · rw [hc]
    exact mem_cachesPut_ne m CACHE_NAME u tag r s h

/-- C10 witness: an eligible asset fetch that does populate the current
store leaves a stale store's (empty) contents untouched. -/
theorem fetch_writes_only_current_store_witness :
    ("ponto-eletronico-v0", ([] : CacheStore))
      ∈ (handleFetch [("ponto-eletronico-v0", [])] (fun _ => some cssResp)
          "/static/css/style.css").caches :=
  (fetch_writes_only_current_store [("ponto-eletronico-v0", [])]
      (fun _ => some cssResp) "/static/css/style.css"
      "ponto-eletronico-v0" [] (by decide)).mpr (by decide)

/-- C3 witness: a 404 response for an asset is returned but the store
still misses the key afterwards. -/
theorem asset_ineligible_not_cached_witness :
    handleFetch [] (fun _ => some notFoundResp) "/static/img/logo.png"
        = ⟨.response notFoundResp, [], 1⟩ ∧
    cachesMatch (handleFetch [] (fun _ => some notFoundResp) "/static/img/logo.png").caches
        "/static/img/logo.png" = none :=
  ⟨(asset_ineligible_not_cached [] (fun _ => some notFoundResp) "/static/img/logo.png"
      notFoundResp (by decide) rfl rfl (by decide)).1,
   (asset_ineligible_not_cached [] (fun _ => some notFoundResp) "/static/img/logo.png"
      notFoundResp (by decide) rfl rfl (by decide)).2.1⟩
